import Mathlib

/-!
# Verification of the orbidder adapter and the vidazoo bidder-utils library

Shallow embedding of `src/modules/orbidderBidAdapter.js` and
`src/libraries/vidazooUtils/bidderUtils.js` (Prebid.js, Vidazoo fork).
JavaScript values are modelled by the inductive `JSVal`; machine time
(`Date.now()`) is passed explicitly as an integer; the browser's
local-storage backend is modelled as an association list together with
two failure flags describing whether its `getItem` / `setItem`
operations throw.
-/

namespace PrebidJS

/-- A JavaScript value, as far as the adapter code inspects one:
`undefined`, `null`, booleans, (integer) numbers, strings, arrays and
plain objects (association lists of fields, in insertion order). -/
inductive JSVal where
  | undefined : JSVal
  | nullv : JSVal
  | bool : Bool → JSVal
  | num : Int → JSVal
  | str : String → JSVal
  | arr : List JSVal → JSVal
  | objv : List (String × JSVal) → JSVal
deriving Repr

/-- JavaScript truthiness: `undefined`, `null`, `false`, `0` and `""` are
falsy; every array and object (even empty) is truthy. -/
def truthy : JSVal → Bool
  | .undefined => false
  | .nullv => false
  | .bool b => b
  | .num n => n != 0
  | .str s => s != ""
  | .arr _ => true
  | .objv _ => true

/-- JavaScript `typeof`. -/
def typeofStr : JSVal → String
  | .undefined => "undefined"
  | .nullv => "object"
  | .bool _ => "boolean"
  | .num _ => "number"
  | .str _ => "string"
  | .arr _ => "object"
  | .objv _ => "object"

/-- JavaScript property read `v[k]`: throws (`.error`) on `undefined` and
`null` receivers, yields the field (or `undefined`) on objects, `length`
and indices on arrays, and `undefined` on primitives. -/
def getFieldE : JSVal → String → Except Unit JSVal
  | .undefined, _ => .error ()
  | .nullv, _ => .error ()
  | .objv fs, k => .ok (((fs.find? (fun p => p.1 = k)).map (·.2)).getD .undefined)
  | .arr xs, k =>
    if k = "length" then .ok (.num xs.length)
    else match k.toNat? with
      | some i => .ok ((xs.get? i).getD .undefined)
      | none => .ok .undefined
  | _, _ => .ok .undefined

/-- JavaScript `v.hasOwnProperty(k)`: throws on `undefined`/`null`, checks
own keys on objects, `length`/indices on arrays, `false` on primitives. -/
def hasOwnPropE : JSVal → String → Except Unit Bool
  | .undefined, _ => .error ()
  | .nullv, _ => .error ()
  | .objv fs, k => .ok (fs.any (fun p => p.1 = k))
  | .arr xs, k =>
    if k = "length" then .ok true
    else match k.toNat? with
      | some i => .ok (i < xs.length)
      | none => .ok false
  | _, _ => .ok false

/-- JavaScript assignment `v[k] = x` on an object: replaces the value of
an existing key in place, otherwise appends the key.  (The adapter only
ever assigns onto values already known to be objects.) -/
def setField (v : JSVal) (k : String) (x : JSVal) : JSVal :=
  match v with
  | .objv fs =>
    if fs.any (fun p => p.1 = k) then
      .objv (fs.map (fun p => if p.1 = k then (p.1, x) else p))
    else
      .objv (fs ++ [(k, x)])
  | _ => v

/-! ## orbidder: `isBidRequestValid` (orbidderBidAdapter.js lines 71-76) -/

/-- The fields of a raw candidate bid that orbidder's validity check
reads: `bid.sizes`, `bid.bidId` and `bid.params`, each an arbitrary
JavaScript value. -/
structure RawBid where
  sizes : JSVal
  bidId : JSVal
  params : JSVal
deriving Repr

/-- Read of `params.k` inside the `&&` chain: `params` is already known
truthy there, so the read cannot throw; on a truthy primitive it yields
`undefined`. -/
def paramField (params : JSVal) (k : String) : JSVal :=
  match getFieldE params k with
  | .ok v => v
  | .error _ => .undefined

/-- orbidder `isBidRequestValid`, the translation of
`!!(bid.sizes && bid.bidId && bid.params && (bid.params.accountId &&
typeof bid.params.accountId === 'string') && (bid.params.placementId &&
typeof ... === 'string') && (typeof bid.params.keyValues === 'undefined'
|| typeof bid.params.keyValues === 'object'))`. -/
def orbidderIsBidRequestValid (bid : RawBid) : Bool :=
  truthy bid.sizes && truthy bid.bidId && truthy bid.params &&
    (truthy (paramField bid.params "accountId") &&
      typeofStr (paramField bid.params "accountId") == "string") &&
    (truthy (paramField bid.params "placementId") &&
      typeofStr (paramField bid.params "placementId") == "string") &&
    (typeofStr (paramField bid.params "keyValues") == "undefined" ||
      typeofStr (paramField bid.params "keyValues") == "object")

/-! ## vidazoo: `extractCID` / `extractPID` / `isBidRequestValid`
(bidderUtils.js lines 18-33) -/

/-- `extractCID(params)`: the `||` chain over the case variants of the
campaign-id key. -/
def extractCID (params : JSVal) : JSVal :=
  let pick := fun (k : String) (rest : JSVal) =>
    let v := paramField params k
    if truthy v then v else rest
  pick "cId" (pick "CID" (pick "cID" (pick "CId" (pick "cid"
    (pick "ciD" (pick "Cid" (paramField params "CiD")))))))

/-- `extractPID(params)`: the `||` chain over the case variants of the
publisher-id key. -/
def extractPID (params : JSVal) : JSVal :=
  let pick := fun (k : String) (rest : JSVal) =>
    let v := paramField params k
    if truthy v then v else rest
  pick "pId" (pick "PID" (pick "pID" (pick "PId" (pick "pid"
    (pick "piD" (pick "Pid" (paramField params "PiD")))))))

/-- vidazoo `isBidRequestValid`: `const params = bid.params || {};
return !!(extractCID(params) && extractPID(params));`.  It looks only at
`bid.params`. -/
def vidazooIsBidRequestValid (bidParams : JSVal) : Bool :=
  let params := if truthy bidParams then bidParams else .objv []
  truthy (extractCID params) && truthy (extractPID params)

/-! ## Floor resolution (orbidderBidAdapter.js lines 152-166,
bidderUtils.js lines 235-245) -/

/-- A JavaScript number as the price-floor code sees one: `NaN` or an
actual (integer-valued, for this model) number. -/
inductive JNum where
  | nan : JNum
  | num : Int → JNum
deriving Repr, DecidableEq

/-- The value produced by calling `bid.getFloor({currency, mediaType: '*',
size: '*'})`: either not a plain object, or a plain object with a
`floor` number and a `currency` string.  A bid without a `getFloor`
function is modelled by `getFloor = none` (`isFn(bid.getFloor)` is
false exactly then). -/
inductive FloorResult where
  | notObject : FloorResult
  | obj : JNum → String → FloorResult
deriving Repr, DecidableEq

/-- `floor.floor` of a `FloorResult.obj`. -/
def FloorResult.floorOf : FloorResult → JNum
  | .notObject => .nan
  | .obj f _ => f

/-- orbidder bid parameters, as read by `getBidFloor` and mutated by
`buildRequests`: the statically configured `params.bidfloor`
(`none` = `undefined`) plus the untouched remaining fields. -/
structure OParams where
  bidfloor : Option JNum
  rest : List (String × JSVal)
deriving Repr

/-- `bid.mediaTypes` of an orbidder bid: the `video` entry (`.undefined` =
absent, which is what `delete` leaves behind) plus the untouched
remaining entries (banner/native configuration). -/
structure OMediaTypes where
  video : JSVal
  rest : List (String × JSVal)
deriving Repr

/-- An orbidder bid request as consumed by `buildRequests` /
`getBidFloor`: `params`, optional `mediaTypes`, the optional dynamic
floor function (modelled by its return value at the fixed argument
`{currency:'EUR', mediaType:'*', size:'*'}`), and the untouched
remaining fields (bidId, sizes, adUnitCode, ...). -/
structure OBidReq where
  params : OParams
  mediaTypes : Option OMediaTypes
  getFloor : Option FloorResult
  rest : List (String × JSVal)
deriving Repr

/-- Modelled from the spec: `isPlainObject` (imported from the core
`utils.js`, which is not part of this repository) recognises plain
objects; on a `FloorResult` it is true exactly for the `obj` case.
`isFn` likewise is true exactly when the bid carries a dynamic
floor-retrieval function, i.e. `getFloor ≠ none`.  `isNaN(x)` on a
number is true exactly for `NaN`. -/
def isPlainObjectFloor : FloorResult → Bool
  | .notObject => false
  | .obj _ _ => true

/-- orbidder `getBidFloor`: returns `bid.params.bidfloor` when the bid
has no `getFloor` function; otherwise calls it with currency `'EUR'`
and returns `floor.floor` when the result is a plain object with a
non-NaN floor and currency exactly `'EUR'`, and `undefined` (`none`)
otherwise. -/
def getBidFloor (bid : OBidReq) : Option JNum :=
  match bid.getFloor with
  | none => bid.params.bidfloor
  | some floor =>
    if isPlainObjectFloor floor ∧ floor.floorOf ≠ JNum.nan ∧
        (match floor with | .obj _ c => c | .notObject => "") = "EUR" then
      some floor.floorOf
    else
      none

/-- The floor block of vidazoo `buildRequestData` (bidderUtils.js lines
235-245): `let {bidFloor} = params; if (isFn(bid.getFloor)) { const
floorInfo = bid.getFloor({currency:'USD',...}); if (floorInfo.currency
=== 'USD') { bidFloor = floorInfo.floor; } }`.  The vidazoo `getFloor`
result is read as an object without an `isPlainObject`/`isNaN` guard;
its fields are modelled directly. -/
def vidazooBidFloor (paramsBidFloor : Option JNum)
    (getFloor : Option (JNum × String)) : Option JNum :=
  match getFloor with
  | none => paramsBidFloor
  | some floorInfo =>
    if floorInfo.2 = "USD" then some floorInfo.1 else paramsBidFloor

/-! ## orbidder response validation and interpretation
(orbidderBidAdapter.js lines 19-42 and 128-144) -/

/-- The base required keys of every bid response. -/
def baseRequiredKeys : List String :=
  ["requestId", "cpm", "ttl", "creativeId", "netRevenue", "currency"]

/-- `isBidResponseValid`: switch on `bidResponse.mediaType`; banner adds
`width`/`height`/`ad` to the required keys; native first dereferences
`bidResponse.native.hasOwnProperty('impressionTrackers')` (which throws
when `native` is `undefined` or `null`); any other media type is
rejected.  Then every required key must be an own property.
`.error ()` models a thrown `TypeError`. -/
def isBidResponseValid (r : JSVal) : Except Unit Bool :=
  match getFieldE r "mediaType" with
  | .error _ => .error ()
  | .ok mt =>
    let checkKeys := fun (keys : List String) =>
      match keys.mapM (fun k => hasOwnPropE r k) with
      | .error _ => Except.error ()
      | .ok bs => Except.ok (bs.all (fun b => b))
    match mt with
    | JSVal.str s =>
      if s = "banner" then
        checkKeys (baseRequiredKeys ++ ["width", "height", "ad"])
      else if s = "native" then
        match getFieldE r "native" with
        | .error _ => .error ()
        | .ok nat =>
          match hasOwnPropE nat "impressionTrackers" with
          | .error _ => .error ()
          | .ok hasTrackers =>
            if !hasTrackers then .ok false else checkKeys baseRequiredKeys
      else
        .ok false
    | _ => .ok false

/-- The mutation applied to an accepted record before it is pushed:
when `Array.isArray(bidResponse.advertiserDomains)`, assign
`bidResponse.meta = { advertiserDomains: bidResponse.advertiserDomains }`
(replacing any previous `meta` value wholesale). -/
def attachMeta (r : JSVal) : JSVal :=
  match getFieldE r "advertiserDomains" with
  | .ok (.arr ds) => setField r "meta" (.objv [("advertiserDomains", .arr ds)])
  | _ => r

/-- The `forEach` loop body of `interpretResponse`, folded over the
records: validation may throw, which aborts the whole loop. -/
def interpretLoop : List JSVal → Except Unit (List JSVal)
  | [] => .ok []
  | r :: rs =>
    match isBidResponseValid r with
    | .error _ => .error ()
    | .ok true =>
      match interpretLoop rs with
      | .error _ => .error ()
      | .ok out => .ok (attachMeta r :: out)
    | .ok false =>
      interpretLoop rs

/-- orbidder `interpretResponse`: reads `serverResponse.body` (`none` =
absent); when the body is a non-empty array it runs the validation /
push loop over the records, otherwise it returns `[]`.  A throw inside
the loop (see `isBidResponseValid`) aborts the whole call. -/
def interpretResponse (body : Option (List JSVal)) : Except Unit (List JSVal) :=
  match body with
  | none => .ok []
  | some records =>
    if records.length > 0 then interpretLoop records else .ok []

/-! ## Local-storage model and the vidazoo storage helpers
(bidderUtils.js lines 35-104) -/

/-- A value this library stores under a key: `setStorageItem` is only
ever called with the integer deal counter or a generated string id,
and `getStorageItem` parses back exactly what was stored (the
`JSON.stringify`/`tryParseJSON` round trip is the identity on these
`{value, created}` pairs). -/
inductive StoredVal where
  | num : Int → StoredVal
  | str : String → StoredVal
deriving Repr, DecidableEq

/-- Truthiness of a stored value (`data.value` guards in the source). -/
def truthySV : StoredVal → Bool
  | .num n => n != 0
  | .str s => s != ""

/-- JavaScript `currentValue + 1` on a stored value: numeric increment
on a number, string concatenation on a string. -/
def svPlusOne : StoredVal → StoredVal
  | .num n => .num (n + 1)
  | .str s => .str (s ++ "1")

/-- The persisted `{value, created}` pair. -/
structure StoredEntry where
  value : StoredVal
  created : Int
deriving Repr, DecidableEq

/-- The external local-storage backend: its current contents plus two
flags saying whether its `getDataFromLocalStorage` /
`setDataInLocalStorage` operations throw (quota, permission, ...). -/
structure Storage where
  data : List (String × StoredEntry)
  getFails : Bool
  setFails : Bool
deriving Repr, DecidableEq

/-- Raw `storage.getDataFromLocalStorage(key)`: may throw. -/
def rawGetItem (s : Storage) (key : String) : Except Unit (Option StoredEntry) :=
  if s.getFails then .error ()
  else .ok (((s.data.find? (fun p => p.1 = key)).map (·.2)))

/-- Raw `storage.setDataInLocalStorage(key, data)`: may throw;
otherwise overwrites the key (or appends it). -/
def rawSetItem (s : Storage) (key : String) (e : StoredEntry) :
    Except Unit Storage :=
  if s.setFails then .error ()
  else if s.data.any (fun p => p.1 = key) then
    .ok { s with data := s.data.map (fun p => if p.1 = key then (p.1, e) else p) }
  else
    .ok { s with data := s.data ++ [(key, e)] }

/-- The stored creation time `timestamp || Date.now()`: a missing or
zero — falsy — timestamp becomes the current time. -/
def createdOf (timestamp : Option Int) (now : Int) : Int :=
  match timestamp with
  | some t => if t = 0 then now else t
  | none => now

/-- `setStorageItem(storage, key, value, timestamp)`: `created` is
`timestamp || Date.now()`, and any throw of the backend is swallowed,
leaving the storage untouched. -/
def setStorageItem (s : Storage) (key : String) (value : StoredVal)
    (timestamp : Option Int) (now : Int) : Storage :=
  match rawSetItem s key ⟨value, createdOf timestamp now⟩ with
  | .error _ => s
  | .ok s2 => s2

/-- `getStorageItem(storage, key)`: a throw of the backend is swallowed
and `null` is returned. -/
def getStorageItem (s : Storage) (key : String) : Option StoredEntry :=
  match rawGetItem s key with
  | .error _ => none
  | .ok v => v

/-- `getUniqueDealId(storage, key, expiry)`: under the derived key
`u_<key>`, regenerate `<key>_<now>` when the entry is missing, falsy or
strictly older than the expiry, persisting it with the current
timestamp; otherwise return the cached value and leave the storage
untouched.  `now` is `Date.now()`. -/
def getUniqueDealId (s : Storage) (key : String) (expiry now : Int) :
    StoredVal × Storage :=
  let storageKey := "u_" ++ key
  let fresh := StoredVal.str (key ++ "_" ++ toString now)
  match getStorageItem s storageKey with
  | some e =>
    if truthySV e.value ∧ ¬ now - e.created > expiry then
      (e.value, s)
    else
      (fresh, setStorageItem s storageKey fresh none now)
  | none => (fresh, setStorageItem s storageKey fresh none now)

/-- `getNextDealId(storage, key, expiry)`: read the stored counter; use
it (and keep its creation timestamp) only when it is truthy and
strictly younger than the expiry, else restart from 0 with no
timestamp; store and return the incremented value.  The surrounding
`try/catch` (`return 0`) has no effect in this model because both
storage helpers already swallow every backend throw. -/
def getNextDealId (s : Storage) (key : String) (expiry now : Int) :
    StoredVal × Storage :=
  let data := getStorageItem s key
  let cur : StoredVal × Option Int :=
    match data with
    | some e =>
      if truthySV e.value ∧ now - e.created < expiry then
        (e.value, some e.created)
      else
        (.num 0, none)
    | none => (.num 0, none)
  let nextValue := svPlusOne cur.1
  (nextValue, setStorageItem s key nextValue cur.2 now)

/-- Iterate `getNextDealId` at a list of call times, collecting the
returned values. -/
def runNextDealIds (s : Storage) (key : String) (expiry : Int) :
    List Int → List StoredVal × Storage
  | [] => ([], s)
  | t :: ts =>
    let r := getNextDealId s key expiry t
    let rec2 := runNextDealIds r.2 key expiry ts
    (r.1 :: rec2.1, rec2.2)

/-- A storage backend with no contents and no failures. -/
def emptyStorage : Storage := ⟨[], false, false⟩

/-! ## `hashCode` (bidderUtils.js lines 106-116) -/

/-- JavaScript `ToInt32`: wrap an integer to the signed 32-bit range. -/
def toInt32 (n : Int) : Int := (n + 2 ^ 31) % 2 ^ 32 - 2 ^ 31

/-- One step of the hash loop, `h = (h << 5) - h + code | 0`: the shift
wraps `h * 32` to 32 bits and the final `| 0` wraps the sum. -/
def hashStep (h : Int) (code : Nat) : Int :=
  toInt32 (toInt32 (h * 32) - h + code)

/-- `hashCode(s, prefix = '_')`: the rolling 32-bit hash over the
string's UTF-16 code units (modelled as the list of character codes),
rendered in decimal after the prefix. -/
def hashCode (codes : List Nat) (pfx : String := "_") : String :=
  pfx ++ toString (codes.foldl hashStep 0)

/-! ## orbidder `buildRequests` (orbidderBidAdapter.js lines 85-120) -/

/-- Modelled from the spec: `convertOrtbRequestToProprietaryNative`
(core `src/native.js`, not among this repository's sources) rewrites
ORTB-style native configuration into the legacy format; the spec
describes the build stage as otherwise receiving the bid objects as-is,
so on bids without ORTB native configuration it is the identity. -/
def convertOrtbRequestToProprietaryNative (bids : List OBidReq) : List OBidReq :=
  bids

/-- The HTTP request descriptor `buildRequests` emits for one bid:
`{url: hostname + '/bid', method: 'POST', options: {withCredentials:
true}, data: {v, pageUrl, ...bidRequest}}`.  The spread bid is kept as
a whole (it is spread after the in-place mutations). -/
structure OrbidderHttpReq where
  url : String
  method : String
  withCredentials : Bool
  pageUrl : String
  dataBid : OBidReq
deriving Repr

/-- The per-bid body of `buildRequests`'s `map`: delete
`mediaTypes.video` when it is truthy, then assign
`params.bidfloor = getBidFloor(bidRequest)` — both mutations of the
received bid object — and emit the request descriptor.  Returns the
descriptor together with the bid as the caller now sees it. -/
def processBidRequest (hostname referer : String) (bid : OBidReq) :
    OrbidderHttpReq × OBidReq :=
  let bid1 :=
    match bid.mediaTypes with
    | some mt =>
      if truthy mt.video then
        { bid with mediaTypes := some { mt with video := .undefined } }
      else bid
    | none => bid
  let bid2 := { bid1 with params := { bid1.params with bidfloor := getBidFloor bid1 } }
  (⟨hostname ++ "/bid", "POST", true, referer, bid2⟩, bid2)

/-- orbidder `buildRequests` restricted to its effect on the bid list
and the emitted descriptors: the ORTB-native conversion, then the
per-bid mutation and descriptor construction.  `hostname` and `referer`
stand for `this.getHostname()` and `bidderRequest.refererInfo.page`. -/
def buildRequests (hostname referer : String) (bids : List OBidReq) :
    List OrbidderHttpReq × List OBidReq :=
  let converted := convertOrtbRequestToProprietaryNative bids
  let processed := converted.map (processBidRequest hostname referer)
  (processed.map (·.1), processed.map (·.2))

/-! ## vidazoo `createUserSyncGetter` (bidderUtils.js lines 152-184) -/

/-- Hex digit for percent-encoding. -/
def hexDigitChar (n : Nat) : Char :=
  if n < 10 then Char.ofNat (48 + n) else Char.ofNat (55 + n)

/-- UTF-8 bytes of a Unicode code point. -/
def utf8Bytes (n : Nat) : List Nat :=
  if n < 128 then [n]
  else if n < 2048 then [192 + n / 64, 128 + n % 64]
  else if n < 65536 then [224 + n / 4096, 128 + n / 64 % 64, 128 + n % 64]
  else [240 + n / 262144, 128 + n / 4096 % 64, 128 + n / 64 % 64, 128 + n % 64]

/-- The characters `encodeURIComponent` leaves unescaped
(ECMA-262: alphanumerics and `- _ . ! ~ * ' ( )`). -/
def isUnreservedURI (c : Char) : Bool :=
  c.isAlpha || c.isDigit || c = '-' || c = '_' || c = '.' || c = '!' ||
    c = '~' || c = '*' || c = Char.ofNat 39 || c = '(' || c = ')'

/-- The JavaScript builtin `encodeURIComponent` (host function):
percent-encodes every reserved character byte-wise in UTF-8. -/
def encodeURIComponent (s : String) : String :=
  String.join (s.data.map (fun c =>
    if isUnreservedURI c then String.singleton c
    else String.join ((utf8Bytes c.toNat).map (fun b =>
      "%" ++ String.singleton (hexDigitChar (b / 16)) ++
        String.singleton (hexDigitChar (b % 16))))))

/-- Keep the elements not yet seen, first occurrences first. -/
def dedupSeen (seen : List String) : List String → List String
  | [] => []
  | x :: xs =>
    if x ∈ seen then dedupSeen seen xs
    else x :: dedupSeen (x :: seen) xs

/-- Modelled from the spec: `uniques` (core utils, used as an array
filter predicate) keeps the first occurrence of each value, i.e. the
campaign-id list is deduplicated preserving order. -/
def dedupKeepFirst (l : List String) : List String := dedupSeen [] l

/-- A bid response as read by `getUserSyncs`: only `body.cid` is
accessed (via `deepAccess(resp, 'body.cid')`, which yields `undefined`
on any missing step); campaign ids are strings, `none` models a
missing/undefined cid. -/
structure SyncResponse where
  cid : Option String
deriving Repr, DecidableEq

/-- `syncOptions` as read by `getUserSyncs`. -/
structure SyncOptions where
  iframeEnabled : Bool
  pixelEnabled : Bool
deriving Repr, DecidableEq

/-- The `options` closed over by `createUserSyncGetter`. -/
structure SyncUrls where
  iframeSyncUrl : String
  imageSyncUrl : String
deriving Repr, DecidableEq

/-- The GDPR consent object (`{gdprApplies, consentString = ''}` is
destructured from it; a missing consent string becomes `''`). -/
structure GdprConsent where
  gdprApplies : Bool
  consentString : Option String
deriving Repr, DecidableEq

/-- The GPP consent object (`{gppString, applicableSections}`). -/
structure GppConsent where
  gppString : Option String
  applicableSections : Option (List Int)
deriving Repr, DecidableEq

/-- One user-sync descriptor `{type, url}`. -/
structure SyncDesc where
  type : String
  url : String
deriving Repr, DecidableEq

/-- Whether `gppString && applicableSections?.length` is truthy. -/
def gppParamsApply (gpp : GppConsent) : Bool :=
  (match gpp.gppString with | some g => g ≠ "" | none => false) &&
    (match gpp.applicableSections with | some l => l.length != 0 | none => false)

/-- The initial value of the `params` template literal of
`getUserSyncs`: `?cid=...&gdpr=0|1&gdpr_consent=...&us_privacy=...`. -/
def userSyncBaseParams (cids : List String) (gdprApplies : Bool)
    (consentString uspConsent : String) : String :=
  "?cid=" ++ encodeURIComponent (String.intercalate "," cids) ++
    "&gdpr=" ++ (if gdprApplies then "1" else "0") ++
    "&gdpr_consent=" ++ encodeURIComponent consentString ++
    "&us_privacy=" ++ encodeURIComponent uspConsent

/-- The query string `params` built by `getUserSyncs`: the base
parameters, extended with `&gpp=...&gpp_sid=...` exactly when
`gppString && applicableSections?.length` is truthy. -/
def userSyncParams (cids : List String) (gdprApplies : Bool)
    (consentString uspConsent : String) (gpp : GppConsent) : String :=
  let params := userSyncBaseParams cids gdprApplies consentString uspConsent
  if gppParamsApply gpp then
    params ++ "&gpp=" ++ encodeURIComponent (gpp.gppString.getD "") ++
      "&gpp_sid=" ++ encodeURIComponent
        (String.intercalate "," (((gpp.applicableSections.getD []).map toString)))
  else
    params

/-- The campaign-id list of `getUserSyncs`: responses with a truthy
`body.cid`, mapped to the cid, deduplicated. -/
def collectCids (responses : List SyncResponse) : List String :=
  dedupKeepFirst ((responses.filter (fun r =>
    match r.cid with | some s => s ≠ "" | none => false)).map (fun r => r.cid.getD ""))

/-- The `getUserSyncs` function returned by `createUserSyncGetter`:
pushes an iframe descriptor when `iframeEnabled && options.iframeSyncUrl`
and an image descriptor when `pixelEnabled && options.imageSyncUrl`,
both with the URL `<base>/<params>`. -/
def getUserSyncs (options : SyncUrls) (syncOptions : SyncOptions)
    (responses : List SyncResponse) (gdprConsent : GdprConsent)
    (uspConsent : String) (gppConsent : GppConsent) : List SyncDesc :=
  let params := userSyncParams (collectCids responses) gdprConsent.gdprApplies
    (gdprConsent.consentString.getD "") uspConsent gppConsent
  (if syncOptions.iframeEnabled ∧ options.iframeSyncUrl ≠ "" then
    [⟨"iframe", options.iframeSyncUrl ++ "/" ++ params⟩] else []) ++
  (if syncOptions.pixelEnabled ∧ options.imageSyncUrl ≠ "" then
    [⟨"image", options.imageSyncUrl ++ "/" ++ params⟩] else [])

/-! ## Specification-side definitions and concrete inputs used by the
theorems -/

/-- The rolling hash exactly as the spec words it: `hash = hash * 31 +
charCode`, each step wrapped to a 32-bit signed integer. -/
def specRollingHash (codes : List Nat) : Int :=
  codes.foldl (fun (h : Int) (c : Nat) => toInt32 (h * 31 + (c : Int))) 0

/-- The amended orbidder floor policy: without a floor function the
static `params.bidfloor`; with one, the returned floor only for a plain
object with a non-NaN floor and currency exactly `'EUR'`, and
`undefined` — not the static floor — in every other case. -/
def floorPolicyOrbidder (bid : OBidReq) : Option JNum :=
  match bid.getFloor with
  | none => bid.params.bidfloor
  | some .notObject => none
  | some (.obj f c) => if c = "EUR" ∧ f ≠ JNum.nan then some f else none

/-- The amended vidazoo floor policy: without a floor function the
static `params.bidFloor`; with one, the returned floor (NaN included)
when the returned currency is exactly `'USD'`, and the static floor
otherwise. -/
def floorPolicyVidazoo (static : Option JNum) (res : Option (JNum × String)) :
    Option JNum :=
  match res with
  | none => static
  | some (f, c) => if c = "USD" then some f else static

/-- Whether `isBidResponseValid` returns (rather than throws). -/
def responseCheckNoThrow (r : JSVal) : Bool :=
  match isBidResponseValid r with
  | .ok _ => true
  | .error _ => false

/-- The boolean verdict of `isBidResponseValid`, `false` when it
throws. -/
def responseCheckOk (r : JSVal) : Bool :=
  match isBidResponseValid r with
  | .ok b => b
  | .error _ => false

/-- The accepted case variants of the vidazoo campaign-id parameter, in
the order `extractCID` tries them. -/
def cidKeys : List String :=
  ["cId", "CID", "cID", "CId", "cid", "ciD", "Cid", "CiD"]

/-- The accepted case variants of the vidazoo publisher-id parameter, in
the order `extractPID` tries them. -/
def pidKeys : List String :=
  ["pId", "PID", "pID", "PId", "pid", "piD", "Pid", "PiD"]

/-- A well-formed banner response record carrying an
`advertiserDomains` array and a pre-existing `meta` field. -/
def respValidBanner : JSVal :=
  .objv [("requestId", .str "1"), ("cpm", .num 1), ("ttl", .num 60),
    ("creativeId", .str "c"), ("netRevenue", .bool true),
    ("currency", .str "EUR"), ("mediaType", .str "banner"),
    ("width", .num 300), ("height", .num 250), ("ad", .str "<div/>"),
    ("advertiserDomains", .arr [.str "a.com"]),
    ("meta", .objv [("x", .num 1)])]

/-- A response record declaring `mediaType: 'native'` with all base
keys but no `native` object at all. -/
def respNativeNoNative : JSVal :=
  .objv [("requestId", .str "2"), ("cpm", .num 1), ("ttl", .num 60),
    ("creativeId", .str "c"), ("netRevenue", .bool true),
    ("currency", .str "EUR"), ("mediaType", .str "native")]

/-- A banner response record missing the required `ad` key. -/
def respBannerNoAd : JSVal :=
  .objv [("requestId", .str "3"), ("cpm", .num 1), ("ttl", .num 60),
    ("creativeId", .str "c"), ("netRevenue", .bool true),
    ("currency", .str "EUR"), ("mediaType", .str "banner"),
    ("width", .num 300), ("height", .num 250)]

/-- A response record declaring an unsupported media type. -/
def respUnknownMedia : JSVal :=
  .objv [("requestId", .str "4"), ("cpm", .num 1), ("ttl", .num 60),
    ("creativeId", .str "c"), ("netRevenue", .bool true),
    ("currency", .str "EUR"), ("mediaType", .str "video"),
    ("width", .num 300), ("height", .num 250), ("ad", .str "<div/>")]

/-- An orbidder bid whose `mediaTypes` carries a (truthy) video
configuration. -/
def c9cexBid : OBidReq :=
  ⟨⟨none, []⟩, some ⟨JSVal.objv [("context", JSVal.str "outstream")], []⟩,
    none, []⟩

/-! ## Helper lemmas -/

/-- `toInt32` only depends on the argument modulo `2^32`. -/
lemma toInt32_congr {a b : Int} (h : a ≡ b [ZMOD (2 ^ 32 : Int)]) :
    toInt32 a = toInt32 b := by
  unfold toInt32
  have h2 : (a + 2 ^ 31) % 2 ^ 32 = (b + 2 ^ 31) % 2 ^ 32 := h.add_right (2 ^ 31)
  omega

/-- `toInt32 x` is congruent to `x` modulo `2^32`. -/
lemma toInt32_modEq (x : Int) : toInt32 x ≡ x [ZMOD (2 ^ 32 : Int)] := by
  unfold toInt32
  calc (x + 2 ^ 31) % 2 ^ 32 - 2 ^ 31
      ≡ (x + 2 ^ 31) - 2 ^ 31 [ZMOD (2 ^ 32 : Int)] :=
        Int.ModEq.sub_right _ (Int.mod_modEq _ _)
    _ = x := by ring

/-- One source hash step `(h << 5) - h + code | 0` equals the spec step
`h * 31 + code` wrapped to 32 bits. -/
lemma hashStep_eq_spec (h : Int) (code : Nat) :
    hashStep h code = toInt32 (h * 31 + code) := by
  unfold hashStep
  apply toInt32_congr
  calc toInt32 (h * 32) - h + code
      ≡ h * 32 - h + code [ZMOD (2 ^ 32 : Int)] :=
        Int.ModEq.add_right _ (Int.ModEq.sub_right _ (toInt32_modEq _))
    _ = h * 31 + code := by ring

/-- The two fold functions agree from any accumulator. -/
lemma foldl_hashStep_eq (codes : List Nat) :
    ∀ h : Int, codes.foldl hashStep h =
      codes.foldl (fun (h : Int) (c : Nat) => toInt32 (h * 31 + (c : Int))) h := by
  induction codes with
  | nil => intro h; rfl
  | cons c cs ih =>
    intro h
    simp only [List.foldl_cons, hashStep_eq_spec, ih]

/-! ## Claim theorems -/

/-- C6: for every string (list of character codes) and prefix,
`hashCode` equals the prefix followed by the decimal rendering (sign
included, via `Int` `toString`) of the rolling hash `h := h * 31 +
charCode` wrapped to a 32-bit signed integer at every step; being a
pure function, two calls on the same input yield the identical
token. -/
theorem hashCode_matches_spec_rolling_hash (codes : List Nat) (pfx : String) :
    hashCode codes pfx = pfx ++ toString (specRollingHash codes) := by
  unfold hashCode specRollingHash
  rw [foldl_hashStep_eq]

/-- C1 counterexample: an orbidder bid with a statically configured
`params.bidfloor` of 1 whose `getFloor` returns `{floor: 2, currency:
'USD'}` (a currency mismatch against the adapter's settlement currency
`'EUR'`).  The claim demands the result fall back to the static
per-bid floor; `getBidFloor` instead returns `undefined`. -/
theorem getBidFloor_mismatch_not_static :
    getBidFloor ⟨⟨some (JNum.num 1), []⟩, none,
        some (FloorResult.obj (JNum.num 2) "USD"), []⟩ = none ∧
      (⟨⟨some (JNum.num 1), []⟩, none,
        some (FloorResult.obj (JNum.num 2) "USD"), []⟩ : OBidReq).params.bidfloor
        = some (JNum.num 1) ∧
      (none : Option JNum) ≠ some (JNum.num 1) := by
  refine ⟨rfl, rfl, ?_⟩
  decide

/-- C1 amended: orbidder `getBidFloor` follows
`floorPolicyOrbidder` — static floor without a floor function, the
returned floor for a plain object with non-NaN floor and currency
exactly `'EUR'`, and `undefined` (never the static floor) otherwise —
while the vidazoo floor block follows `floorPolicyVidazoo` — static
floor without a floor function, returned floor (NaN included) on
currency `'USD'`, static floor otherwise. -/
theorem floor_resolution_amended (bid : OBidReq) (static : Option JNum)
    (res : Option (JNum × String)) :
    getBidFloor bid = floorPolicyOrbidder bid ∧
      vidazooBidFloor static res = floorPolicyVidazoo static res := by
  constructor
  · unfold getBidFloor floorPolicyOrbidder
    match bid.getFloor with
    | none => rfl
    | some .notObject => simp [isPlainObjectFloor]
    | some (.obj f c) =>
      by_cases hc : c = "EUR" <;> by_cases hf : f = JNum.nan <;>
        simp [isPlainObjectFloor, FloorResult.floorOf, hc, hf]
  · unfold vidazooBidFloor floorPolicyVidazoo
    match res with
    | none => rfl
    | some (f, c) => rfl

/-- A truthy string-typed value is exactly a non-empty string
literal. -/
lemma truthy_string_iff (x : JSVal) :
    (truthy x = true ∧ typeofStr x = "string") ↔
      ∃ s, s ≠ "" ∧ x = JSVal.str s := by
  cases x <;> simp [truthy, typeofStr]

/-- Truthiness of the `||`-chain step used by `extractCID` /
`extractPID`. -/
lemma truthy_pick (v r : JSVal) :
    truthy (if truthy v then v else r) = (truthy v || truthy r) := by
  by_cases h : truthy v <;> simp [h]

/-- `extractCID` is truthy iff some accepted campaign-id key variant is
truthy. -/
lemma extractCID_truthy (params : JSVal) :
    truthy (extractCID params) =
      cidKeys.any (fun k => truthy (paramField params k)) := by
  simp only [extractCID, cidKeys, truthy_pick, List.any_cons, List.any_nil,
    Bool.or_false]

/-- `extractPID` is truthy iff some accepted publisher-id key variant is
truthy. -/
lemma extractPID_truthy (params : JSVal) :
    truthy (extractPID params) =
      pidKeys.any (fun k => truthy (paramField params k)) := by
  simp only [extractPID, pidKeys, truthy_pick, List.any_cons, List.any_nil,
    Bool.or_false]

/-- C3 counterexample: orbidder accepts a bid whose `sizes` is the
EMPTY array (an empty JavaScript array is truthy), although the claim
says a bid with an empty sizes array is invalid. -/
theorem orbidder_accepts_empty_sizes :
    orbidderIsBidRequestValid ⟨JSVal.arr [], JSVal.str "1",
        JSVal.objv [("accountId", JSVal.str "a"),
          ("placementId", JSVal.str "p")]⟩ = true ∧
      (⟨JSVal.arr [], JSVal.str "1",
        JSVal.objv [("accountId", JSVal.str "a"),
          ("placementId", JSVal.str "p")]⟩ : RawBid).sizes = JSVal.arr [] :=
  ⟨rfl, rfl⟩

/-- C3 amended: orbidder validity holds iff `sizes`, `bidId` and
`params` are truthy (an empty sizes array, being truthy, passes),
`accountId` and `placementId` are non-empty strings, and `keyValues` is
absent or object-typed; vidazoo validity ignores sizes and bid id
entirely and holds iff some case variant of the campaign-id key and
some case variant of the publisher-id key are truthy on `bid.params ||
{}`. -/
theorem isBidRequestValid_amended (bid : RawBid) (vparams : JSVal) :
    (orbidderIsBidRequestValid bid = true ↔
      truthy bid.sizes = true ∧ truthy bid.bidId = true ∧
        truthy bid.params = true ∧
        (∃ s, s ≠ "" ∧ paramField bid.params "accountId" = JSVal.str s) ∧
        (∃ s, s ≠ "" ∧ paramField bid.params "placementId" = JSVal.str s) ∧
        (typeofStr (paramField bid.params "keyValues") = "undefined" ∨
          typeofStr (paramField bid.params "keyValues") = "object")) ∧
    (vidazooIsBidRequestValid vparams = true ↔
      (cidKeys.any (fun k => truthy (paramField
          (if truthy vparams then vparams else JSVal.objv []) k)) = true ∧
        pidKeys.any (fun k => truthy (paramField
          (if truthy vparams then vparams else JSVal.objv []) k)) = true)) := by
  constructor
  · rw [← truthy_string_iff, ← truthy_string_iff]
    unfold orbidderIsBidRequestValid
    simp only [Bool.and_eq_true, Bool.or_eq_true, beq_iff_eq]
    tauto
  · unfold vidazooIsBidRequestValid
    simp only [Bool.and_eq_true, extractCID_truthy, extractPID_truthy]

/-- C5 counterexample: with a storage backend whose `getItem` and
`setItem` both throw, `getNextDealId` returns 1 — the reset counter —
rather than the 0 the claim demands. -/
theorem getNextDealId_failure_returns_one :
    getNextDealId ⟨[], true, true⟩ "k" 100 50 =
        (StoredVal.num 1, ⟨[], true, true⟩) ∧
      StoredVal.num 1 ≠ StoredVal.num 0 := by
  refine ⟨rfl, ?_⟩
  decide

/-- C5 amended: storage failures are swallowed inside
`getStorageItem` / `setStorageItem` before the `try/catch` of
`getNextDealId` can see them, so no exception ever propagates, but the
function returns the reset counter 1 (not 0) when `getItem` throws,
and a throwing `setItem` merely loses the write, leaving the stored
data unchanged. -/
theorem getNextDealId_failure_amended (s : Storage) (key : String)
    (expiry now : Int) :
    (s.getFails = true → (getNextDealId s key expiry now).1 = StoredVal.num 1) ∧
      (s.setFails = true → (getNextDealId s key expiry now).2 = s) := by
  constructor
  · intro hg
    simp [getNextDealId, getStorageItem, rawGetItem, hg, svPlusOne]
  · intro hs
    simp [getNextDealId, setStorageItem, rawSetItem, hs]

/-- C5 witness: the amended theorem applied to the all-failing
storage backend. -/
theorem getNextDealId_failure_amended_witness :
    (getNextDealId ⟨[], true, true⟩ "k" 100 50).1 = StoredVal.num 1 ∧
      (getNextDealId ⟨[], true, true⟩ "k" 100 50).2 = ⟨[], true, true⟩ :=
  ⟨(getNextDealId_failure_amended ⟨[], true, true⟩ "k" 100 50).1 rfl,
    (getNextDealId_failure_amended ⟨[], true, true⟩ "k" 100 50).2 rfl⟩

/-- C2: a single response record declaring `mediaType: 'native'` with
no `native` object makes `isBidResponseValid` dereference
`undefined.hasOwnProperty`, so the whole `interpretResponse` call
throws and even the perfectly valid banner record of the same array is
lost — although dropping each invalid record individually works for
every non-throwing kind of invalidity (missing banner key, unsupported
media type), and the validator's own docstring promises a boolean
return. -/
theorem interpretResponse_native_record_throws :
    interpretResponse (some [respValidBanner, respNativeNoNative]) =
        .error () ∧
      interpretResponse (some [respValidBanner]) =
        .ok [attachMeta respValidBanner] ∧
      interpretResponse
          (some [respValidBanner, respBannerNoAd, respUnknownMedia]) =
        .ok [attachMeta respValidBanner] :=
  ⟨rfl, rfl, rfl⟩

/-- The `forEach` body equals filtering by the validation verdict and
attaching `meta`, provided no record makes the validation throw. -/
lemma interpretLoop_eq_filter (rs : List JSVal)
    (h : ∀ r ∈ rs, responseCheckNoThrow r = true) :
    interpretLoop rs = .ok ((rs.filter responseCheckOk).map attachMeta) := by
  induction rs with
  | nil => rfl
  | cons r rest ih =>
    have hr := h r (List.mem_cons_self r rest)
    have hrest := ih (fun x hx => h x (List.mem_cons_of_mem r hx))
    unfold interpretLoop
    unfold responseCheckNoThrow at hr
    cases hb : isBidResponseValid r with
    | error e => rw [hb] at hr; simp at hr
    | ok b =>
      have hok : responseCheckOk r = b := by
        unfold responseCheckOk; rw [hb]
      cases b with
      | true => simp [hb, hrest, List.filter_cons, hok]
      | false => simp [hb, hrest, List.filter_cons, hok]

/-- C10 counterexample: `respValidBanner` carries `meta: {x: 1}` and an
`advertiserDomains` array; the record `interpretResponse` returns has
its `meta` REPLACED by `{advertiserDomains: [...]}` — the pre-existing
`meta.x` field is gone, so the returned element is not the input record
with a `meta.advertiserDomains` field merely added. -/
theorem interpretResponse_meta_replaced :
    (interpretResponse (some [respValidBanner])).map
        (List.map (fun r => getFieldE r "meta")) =
      .ok [.ok (JSVal.objv
        [("advertiserDomains", JSVal.arr [JSVal.str "a.com"])])] ∧
      getFieldE respValidBanner "meta" =
        .ok (JSVal.objv [("x", JSVal.num 1)]) ∧
      hasOwnPropE (JSVal.objv
        [("advertiserDomains", JSVal.arr [JSVal.str "a.com"])]) "x" =
        .ok false :=
  ⟨rfl, rfl, rfl⟩

/-- C10 amended: for every body none of whose records makes the
validation throw (see C2 for the throwing case), `interpretResponse`
returns exactly the subsequence of records whose validation verdict is
true, in their original order, each record unmodified except that its
`meta` field is REPLACED wholesale by `{advertiserDomains: <the
record's advertiserDomains list>}` whenever that list is an array
(`attachMeta`). -/
theorem interpretResponse_amended (records : List JSVal)
    (h : ∀ r ∈ records, responseCheckNoThrow r = true) :
    interpretResponse (some records) =
      .ok ((records.filter responseCheckOk).map attachMeta) := by
  cases records with
  | nil => rfl
  | cons r rest =>
    have hstep : interpretResponse (some (r :: rest)) =
        interpretLoop (r :: rest) := by
      simp [interpretResponse]
    rw [hstep]
    exact interpretLoop_eq_filter _ h

/-- C10 witness: the amended theorem applied to a concrete two-record
body with one valid and one invalid banner. -/
theorem interpretResponse_amended_witness :
    interpretResponse (some [respValidBanner, respBannerNoAd]) =
      .ok [attachMeta respValidBanner] := by
  have h := interpretResponse_amended [respValidBanner, respBannerNoAd]
    (by decide)
  exact h.trans rfl

/-- C9 counterexample: `buildRequests` deletes the (truthy) video
media type from the received bid object itself: after the call the
input bid's `mediaTypes.video` is `undefined`, not the original video
configuration, contradicting the claim that all fields other than the
attached floor are unchanged. -/
theorem buildRequests_mutates_video :
    ((buildRequests "https://orbidder.otto.de" "" [c9cexBid]).2.map
        (fun b => b.mediaTypes.map (fun mt => mt.video))) =
      [some JSVal.undefined] ∧
      c9cexBid.mediaTypes.map (fun mt => mt.video) =
        some (JSVal.objv [("context", JSVal.str "outstream")]) ∧
      some JSVal.undefined ≠
        some (JSVal.objv [("context", JSVal.str "outstream")]) := by
  refine ⟨rfl, rfl, ?_⟩
  intro h
  injection h with h2
  exact JSVal.noConfusion h2

/-- C9 amended: `buildRequests` returns the received bid objects
mutated in exactly two places — `params.bidfloor` is set to the
computed floor, and a truthy `mediaTypes.video` entry is deleted
(leaving `undefined`); every other field of every bid is unchanged. -/
theorem buildRequests_amended (hostname referer : String)
    (bids : List OBidReq) :
    (buildRequests hostname referer bids).2 = bids.map (fun b =>
      { b with
        params := { b.params with bidfloor := getBidFloor b },
        mediaTypes := b.mediaTypes.map (fun mt =>
          if truthy mt.video then { mt with video := JSVal.undefined }
          else mt) }) := by
  unfold buildRequests convertOrtbRequestToProprietaryNative
  simp only [List.map_map]
  apply List.map_congr_left
  intro b _
  obtain ⟨p, mt, gf, rest⟩ := b
  cases mt with
  | none => rfl
  | some mtv =>
    by_cases hv : truthy mtv.video
    · simp [processBidRequest, hv, getBidFloor]
    · simp [processBidRequest, hv, getBidFloor]

/-- Finding a key after replacing its entry in place. -/
lemma find_replace (l : List (String × StoredEntry)) (key : String)
    (e : StoredEntry) (h : l.any (fun p => p.1 = key) = true) :
    (l.map (fun p => if p.1 = key then (p.1, e) else p)).find?
      (fun p => p.1 = key) = some (key, e) := by
  induction l with
  | nil => simp at h
  | cons a tl ih =>
    by_cases hak : a.1 = key
    · simp [hak, List.find?_cons_of_pos]
    · have htl : tl.any (fun p => p.1 = key) = true := by
        simp [List.any_cons, hak] at h
        simpa using h
      simp only [List.map_cons, if_neg hak]
      rw [List.find?_cons_of_neg _ (by simpa using hak)]
      exact ih htl

/-- Finding a key after appending it to a list that lacks it. -/
lemma find_append_new (l : List (String × StoredEntry)) (key : String)
    (e : StoredEntry) (h : ¬ l.any (fun p => p.1 = key) = true) :
    (l ++ [(key, e)]).find? (fun p => p.1 = key) = some (key, e) := by
  induction l with
  | nil => simp [List.find?_cons_of_pos]
  | cons a tl ih =>
    simp only [List.any_cons, Bool.or_eq_true, not_or] at h
    rw [List.cons_append, List.find?_cons_of_neg _ (by simpa using h.1)]
    exact ih (by simpa using h.2)

/-- A successful `setStorageItem` stores `{value, timestamp || now}`
under the key. -/
lemma getStorageItem_setStorageItem (s : Storage) (key : String)
    (v : StoredVal) (ts : Option Int) (now : Int)
    (hg : s.getFails = false) (hs : s.setFails = false) :
    getStorageItem (setStorageItem s key v ts now) key =
      some ⟨v, createdOf ts now⟩ := by
  unfold setStorageItem rawSetItem
  rw [if_neg (by simp [hs])]
  by_cases ha : s.data.any (fun p => p.1 = key) = true
  · rw [if_pos ha]
    simp only [getStorageItem, rawGetItem]
    rw [if_neg (by simp [hg]), find_replace s.data key _ ha]
    rfl
  · rw [if_neg ha]
    simp only [getStorageItem, rawGetItem]
    rw [if_neg (by simp [hg]), find_append_new s.data key _ ha]
    rfl

/-- `setStorageItem` never changes the failure flags. -/
lemma setStorageItem_flags (s : Storage) (key : String) (v : StoredVal)
    (ts : Option Int) (now : Int) :
    (setStorageItem s key v ts now).getFails = s.getFails ∧
      (setStorageItem s key v ts now).setFails = s.setFails := by
  unfold setStorageItem rawSetItem
  by_cases hs : s.setFails = true
  · rw [if_pos hs]
    exact ⟨rfl, rfl⟩
  · rw [if_neg hs]
    by_cases ha : s.data.any (fun p => p.1 = key) = true
    · rw [if_pos ha]
      exact ⟨rfl, rfl⟩
    · rw [if_neg ha]
      exact ⟨rfl, rfl⟩

/-- `getNextDealId` on a live (truthy, unexpired) stored counter. -/
lemma getNextDealId_live (s : Storage) (key : String) (expiry now v c : Int)
    (hlook : getStorageItem s key = some ⟨.num v, c⟩) (hv : v ≠ 0)
    (hwin : now - c < expiry) :
    getNextDealId s key expiry now =
      (StoredVal.num (v + 1), setStorageItem s key (.num (v + 1)) (some c) now) := by
  simp [getNextDealId, hlook, truthySV, svPlusOne, hv, hwin]

/-- `getNextDealId` on a missing or dead (falsy or expired) stored
counter. -/
lemma getNextDealId_reset (s : Storage) (key : String) (expiry now : Int)
    (h : ∀ e, getStorageItem s key = some e →
      ¬ (truthySV e.value = true ∧ now - e.created < expiry)) :
    getNextDealId s key expiry now =
      (StoredVal.num 1, setStorageItem s key (.num 1) none now) := by
  unfold getNextDealId
  cases hlook : getStorageItem s key with
  | none => simp [hlook, svPlusOne]
  | some e =>
    have := h e hlook
    simp [hlook, svPlusOne, if_neg this]

/-- Counting invariant for a run of `getNextDealId` calls: starting
from a stored counter `{v, t0}` with every call inside the expiry
window anchored at `t0`, the calls return `v+1, v+2, ...` and the
final store holds `{v + len, t0}`. -/
lemma runNextDealIds_counter (key : String) (expiry t0 : Int)
    (ht0 : t0 ≠ 0) :
    ∀ (ts : List Int) (s : Storage) (v : Int), 0 < v →
      s.getFails = false → s.setFails = false →
      getStorageItem s key = some ⟨.num v, t0⟩ →
      (∀ t ∈ ts, t - t0 < expiry) →
      (runNextDealIds s key expiry ts).1 =
          (List.range ts.length).map
            (fun (i : Nat) => StoredVal.num (v + (i : Int) + 1)) ∧
        (runNextDealIds s key expiry ts).2.getFails = false ∧
        (runNextDealIds s key expiry ts).2.setFails = false ∧
        getStorageItem (runNextDealIds s key expiry ts).2 key =
          some ⟨.num (v + (ts.length : Int)), t0⟩ := by
  intro ts
  induction ts with
  | nil =>
    intro s v hv hg hs hlook _
    refine ⟨rfl, hg, hs, ?_⟩
    simpa using hlook
  | cons t ts' ih =>
    intro s v hv hg hs hlook hwin
    have hstep := getNextDealId_live s key expiry t v t0 hlook
      (by omega) (hwin t (List.mem_cons_self t ts'))
    have hflags := setStorageItem_flags s key (.num (v + 1)) (some t0) t
    have hlook2 : getStorageItem (getNextDealId s key expiry t).2 key =
        some ⟨.num (v + 1), t0⟩ := by
      rw [hstep]
      rw [getStorageItem_setStorageItem s key _ _ _ hg hs]
      simp [createdOf, ht0]
    have hg2 : (getNextDealId s key expiry t).2.getFails = false := by
      rw [hstep]; exact hflags.1.trans hg
    have hs2 : (getNextDealId s key expiry t).2.setFails = false := by
      rw [hstep]; exact hflags.2.trans hs
    have hrec := ih (getNextDealId s key expiry t).2 (v + 1) (by omega)
      hg2 hs2 hlook2 (fun x hx => hwin x (List.mem_cons_of_mem t hx))
    refine ⟨?_, hrec.2.1, hrec.2.2.1, ?_⟩
    · show (getNextDealId s key expiry t).1 ::
        (runNextDealIds (getNextDealId s key expiry t).2 key expiry ts').1 = _
      rw [hrec.1, hstep]
      simp only [List.length_cons, List.range_succ_eq_map, List.map_cons,
        List.map_map]
      refine congrArg₂ _ (by simp) ?_
      apply List.map_congr_left
      intro i _
      simp only [Function.comp_apply]
      congr 1
      push_cast
      ring
    · show getStorageItem
        (runNextDealIds (getNextDealId s key expiry t).2 key expiry ts').2 key = _
      rw [hrec.2.2.2]
      have harith : v + 1 + (ts'.length : Int) =
          v + (((t :: ts').length : Nat) : Int) := by
        simp only [List.length_cons]
        push_cast
        ring
      rw [harith]

/-- C4: each `getNextDealId` call reads the stored `{value, created}`
pair; an absent pair yields 1 with a fresh timestamp; a live pair (with
the positive counter and timestamp this code itself persists) yields
the stored value plus one and keeps the original creation timestamp; an
expired pair (now - created not below the expiry) resets both counter
and timestamp; and consequently, from empty storage, successive calls
inside the expiry window anchored at the first call return 1, 2, 3,
..., while the first call past the window returns 1 again. -/
theorem getNextDealId_counter_spec (s : Storage) (key : String)
    (expiry now : Int) (hg : s.getFails = false) (hs : s.setFails = false) :
    (getStorageItem s key = none →
      (getNextDealId s key expiry now).1 = StoredVal.num 1 ∧
        getStorageItem (getNextDealId s key expiry now).2 key =
          some ⟨StoredVal.num 1, now⟩) ∧
    (∀ v c : Int, getStorageItem s key = some ⟨StoredVal.num v, c⟩ →
      0 < v → c ≠ 0 → now - c < expiry →
      (getNextDealId s key expiry now).1 = StoredVal.num (v + 1) ∧
        getStorageItem (getNextDealId s key expiry now).2 key =
          some ⟨StoredVal.num (v + 1), c⟩) ∧
    (∀ v c : Int, getStorageItem s key = some ⟨StoredVal.num v, c⟩ →
      ¬ now - c < expiry →
      (getNextDealId s key expiry now).1 = StoredVal.num 1 ∧
        getStorageItem (getNextDealId s key expiry now).2 key =
          some ⟨StoredVal.num 1, now⟩) ∧
    (∀ (t0 : Int) (ts : List Int), t0 ≠ 0 →
      (∀ t ∈ ts, t - t0 < expiry) →
      (runNextDealIds emptyStorage key expiry (t0 :: ts)).1 =
        (List.range (ts.length + 1)).map
          (fun (i : Nat) => StoredVal.num ((i : Int) + 1))) ∧
    (∀ (t0 tLate : Int) (ts : List Int), t0 ≠ 0 →
      (∀ t ∈ ts, t - t0 < expiry) → ¬ tLate - t0 < expiry →
      (getNextDealId (runNextDealIds emptyStorage key expiry (t0 :: ts)).2
        key expiry tLate).1 = StoredVal.num 1) := by
  have hempty : ∀ t : Int, getNextDealId emptyStorage key expiry t =
      (StoredVal.num 1, setStorageItem emptyStorage key (.num 1) none t) := by
    intro t
    apply getNextDealId_reset
    intro e he
    simp [getStorageItem, rawGetItem, emptyStorage] at he
  have hrun : ∀ (t0 : Int) (ts : List Int), t0 ≠ 0 →
      (∀ t ∈ ts, t - t0 < expiry) →
      (runNextDealIds emptyStorage key expiry (t0 :: ts)).1 =
          StoredVal.num 1 :: (List.range ts.length).map
            (fun (i : Nat) => StoredVal.num (1 + (i : Int) + 1)) ∧
        (runNextDealIds emptyStorage key expiry (t0 :: ts)).2.getFails = false ∧
        (runNextDealIds emptyStorage key expiry (t0 :: ts)).2.setFails = false ∧
        getStorageItem (runNextDealIds emptyStorage key expiry (t0 :: ts)).2 key =
          some ⟨.num (1 + (ts.length : Int)), t0⟩ := by
    intro t0 ts ht0 hwin
    have h1 : getStorageItem (getNextDealId emptyStorage key expiry t0).2 key =
        some ⟨.num 1, t0⟩ := by
      rw [hempty t0, getStorageItem_setStorageItem _ _ _ _ _ rfl rfl]
      rfl
    have hfl := setStorageItem_flags emptyStorage key (.num 1) none t0
    have hrec := runNextDealIds_counter key expiry t0 ht0 ts
      (getNextDealId emptyStorage key expiry t0).2 1 (by omega)
      (by rw [hempty t0]; exact hfl.1) (by rw [hempty t0]; exact hfl.2)
      h1 hwin
    refine ⟨?_, hrec.2.1, hrec.2.2.1, hrec.2.2.2⟩
    show (getNextDealId emptyStorage key expiry t0).1 ::
      (runNextDealIds (getNextDealId emptyStorage key expiry t0).2
        key expiry ts).1 = _
    rw [hrec.1, hempty t0]
  refine ⟨?_, ?_, ?_, ?_, ?_⟩
  · intro hlook
    have h := getNextDealId_reset s key expiry now
      (by intro e he; rw [hlook] at he; exact absurd he (by simp))
    rw [h]
    exact ⟨rfl, by rw [getStorageItem_setStorageItem _ _ _ _ _ hg hs]; rfl⟩
  · intro v c hlook hv hc hwin
    have h := getNextDealId_live s key expiry now v c hlook (by omega) hwin
    rw [h]
    refine ⟨rfl, ?_⟩
    rw [getStorageItem_setStorageItem _ _ _ _ _ hg hs]
    simp [createdOf, hc]
  · intro v c hlook hwin
    have h := getNextDealId_reset s key expiry now (by
      intro e he
      rw [hlook] at he
      injection he with he2
      subst he2
      intro hcontra
      exact hwin hcontra.2)
    rw [h]
    exact ⟨rfl, by rw [getStorageItem_setStorageItem _ _ _ _ _ hg hs]; rfl⟩
  · intro t0 ts ht0 hwin
    rw [(hrun t0 ts ht0 hwin).1]
    rw [List.range_succ_eq_map, List.map_cons, List.map_map]
    refine congrArg₂ _ (by simp) ?_
    apply List.map_congr_left
    intro i _
    simp only [Function.comp_apply]
    congr 1
    push_cast
    ring
  · intro t0 tLate ts ht0 hwin hlate
    have hr := hrun t0 ts ht0 hwin
    have h := getNextDealId_reset
      (runNextDealIds emptyStorage key expiry (t0 :: ts)).2 key expiry tLate
      (by
        intro e he
        rw [hr.2.2.2] at he
        injection he with he2
        subst he2
        intro hcontra
        exact hlate hcontra.2)
    rw [h]

/-- C4 witness: three calls at times 10, 20, 30 inside a window of 100
count 1, 2, 3 from empty storage, and a later call at time 200 resets
to 1. -/
theorem getNextDealId_counter_spec_witness :
    (runNextDealIds emptyStorage "k" 100 [10, 20, 30]).1 =
        [StoredVal.num 1, StoredVal.num 2, StoredVal.num 3] ∧
      (getNextDealId (runNextDealIds emptyStorage "k" 100 [10, 20, 30]).2
        "k" 100 200).1 = StoredVal.num 1 := by
  have h := getNextDealId_counter_spec emptyStorage "k" 100 10 rfl rfl
  constructor
  · have h4 := h.2.2.2.1 10 [20, 30] (by decide) (by decide)
    rw [h4]
    rfl
  · exact h.2.2.2.2 10 200 [20, 30] (by decide) (by decide) (by decide)

/-- A string with an underscore in the middle is never empty. -/
lemma underscore_mid_ne_empty (a b : String) : a ++ "_" ++ b ≠ "" := by
  intro h
  have hlen : (a ++ "_" ++ b).length = 0 := by rw [h]; rfl
  rw [String.length_append, String.length_append] at hlen
  have h1 : ("_" : String).length = 1 := rfl
  omega

/-- `getUniqueDealId` on a live cached entry returns it and leaves the
storage untouched. -/
lemma getUniqueDealId_eq_cached (s : Storage) (key : String)
    (expiry now : Int) (e : StoredEntry)
    (hl : getStorageItem s ("u_" ++ key) = some e)
    (hcond : truthySV e.value = true ∧ ¬ now - e.created > expiry) :
    getUniqueDealId s key expiry now = (e.value, s) := by
  simp only [getUniqueDealId, hl, if_pos hcond]

/-- `getUniqueDealId` on a missing entry regenerates and persists the
id `<key>_<now>`. -/
lemma getUniqueDealId_eq_fresh_of_none (s : Storage) (key : String)
    (expiry now : Int) (hl : getStorageItem s ("u_" ++ key) = none) :
    getUniqueDealId s key expiry now =
      (StoredVal.str (key ++ "_" ++ toString now),
        setStorageItem s ("u_" ++ key)
          (StoredVal.str (key ++ "_" ++ toString now)) none now) := by
  simp only [getUniqueDealId, hl]

/-- `getUniqueDealId` on a dead (falsy or expired) entry regenerates
and persists the id `<key>_<now>`. -/
lemma getUniqueDealId_eq_fresh_of_dead (s : Storage) (key : String)
    (expiry now : Int) (e : StoredEntry)
    (hl : getStorageItem s ("u_" ++ key) = some e)
    (hcond : ¬ (truthySV e.value = true ∧ ¬ now - e.created > expiry)) :
    getUniqueDealId s key expiry now =
      (StoredVal.str (key ++ "_" ++ toString now),
        setStorageItem s ("u_" ++ key)
          (StoredVal.str (key ++ "_" ++ toString now)) none now) := by
  simp only [getUniqueDealId, hl, if_neg hcond]

/-- After any successful `getUniqueDealId` call, the derived key holds
a truthy entry whose value is exactly the returned id. -/
lemma getUniqueDealId_post (s : Storage) (key : String) (expiry now : Int)
    (hg : s.getFails = false) (hs : s.setFails = false) :
    ∃ e1 : StoredEntry,
      getStorageItem (getUniqueDealId s key expiry now).2 ("u_" ++ key) =
          some e1 ∧
        e1.value = (getUniqueDealId s key expiry now).1 ∧
        truthySV e1.value = true := by
  cases hl : getStorageItem s ("u_" ++ key) with
  | none =>
    rw [getUniqueDealId_eq_fresh_of_none s key expiry now hl]
    refine ⟨⟨.str (key ++ "_" ++ toString now), now⟩, ?_, rfl, ?_⟩
    · rw [getStorageItem_setStorageItem _ _ _ _ _ hg hs]
      rfl
    · simp [truthySV, underscore_mid_ne_empty]
  | some e =>
    by_cases hcond : truthySV e.value = true ∧ ¬ now - e.created > expiry
    · rw [getUniqueDealId_eq_cached s key expiry now e hl hcond]
      exact ⟨e, hl, rfl, hcond.1⟩
    · rw [getUniqueDealId_eq_fresh_of_dead s key expiry now e hl hcond]
      refine ⟨⟨.str (key ++ "_" ++ toString now), now⟩, ?_, rfl, ?_⟩
      · rw [getStorageItem_setStorageItem _ _ _ _ _ hg hs]
        rfl
      · simp [truthySV, underscore_mid_ne_empty]

/-- C7: when the storage backend works and the second call falls inside
the expiry window of the entry left by the first call, two successive
`getUniqueDealId` calls with the same key return the identical id and
the second call leaves the storage — including the stored
`{value, created}` pair — completely unchanged. -/
theorem getUniqueDealId_stable (s : Storage) (key : String)
    (expiry t0 t1 : Int) (hg : s.getFails = false) (hs : s.setFails = false)
    (hwin : ∀ e, getStorageItem (getUniqueDealId s key expiry t0).2
      ("u_" ++ key) = some e → ¬ t1 - e.created > expiry) :
    getUniqueDealId (getUniqueDealId s key expiry t0).2 key expiry t1 =
      ((getUniqueDealId s key expiry t0).1,
        (getUniqueDealId s key expiry t0).2) := by
  obtain ⟨e1, he1, hval, htr⟩ := getUniqueDealId_post s key expiry t0 hg hs
  have hcond : truthySV e1.value = true ∧ ¬ t1 - e1.created > expiry :=
    ⟨htr, hwin e1 he1⟩
  rw [getUniqueDealId_eq_cached _ key expiry t1 e1 he1 hcond, hval]

/-- C7 witness: the theorem applied to empty storage, key `k`, expiry
100, first call at time 10 and second call at time 20. -/
theorem getUniqueDealId_stable_witness :
    getUniqueDealId (getUniqueDealId emptyStorage "k" 100 10).2 "k" 100 20 =
      ((getUniqueDealId emptyStorage "k" 100 10).1,
        (getUniqueDealId emptyStorage "k" 100 10).2) := by
  refine getUniqueDealId_stable emptyStorage "k" 100 10 20 rfl rfl ?_
  intro e he
  have : e = ⟨.str "k_10", 10⟩ := by
    rw [show getStorageItem (getUniqueDealId emptyStorage "k" 100 10).2
        ("u_" ++ "k") = some ⟨.str "k_10", 10⟩ from rfl] at he
    injection he with h2
    exact h2.symm
  rw [this]
  decide

/-- Membership in the accumulator-based deduplication. -/
lemma dedupSeen_mem : ∀ (l seen : List String) (c : String),
    c ∈ dedupSeen seen l ↔ c ∈ l ∧ c ∉ seen := by
  intro l
  induction l with
  | nil => intro seen c; simp [dedupSeen]
  | cons x xs ih =>
    intro seen c
    rw [dedupSeen]
    by_cases hx : x ∈ seen
    · rw [if_pos hx, ih]
      by_cases hc : c = x
      · subst hc
        simp [hx]
      · simp [hc]
    · rw [if_neg hx]
      simp only [List.mem_cons, ih, List.mem_cons, not_or]
      by_cases hc : c = x
      · subst hc
        simp [hx]
      · simp [hc]

/-- Membership is preserved by the keep-first deduplication. -/
lemma dedupKeepFirst_mem (l : List String) (c : String) :
    c ∈ dedupKeepFirst l ↔ c ∈ l := by
  unfold dedupKeepFirst
  rw [dedupSeen_mem]
  simp

/-- The accumulator-based deduplication leaves no duplicates. -/
lemma dedupSeen_nodup : ∀ (l seen : List String),
    (dedupSeen seen l).Nodup := by
  intro l
  induction l with
  | nil => intro seen; simp [dedupSeen]
  | cons x xs ih =>
    intro seen
    rw [dedupSeen]
    by_cases hx : x ∈ seen
    · rw [if_pos hx]
      exact ih seen
    · rw [if_neg hx]
      refine List.nodup_cons.mpr ⟨?_, ih (x :: seen)⟩
      rw [dedupSeen_mem]
      simp

/-- The keep-first deduplication leaves no duplicates. -/
lemma dedupKeepFirst_nodup (l : List String) : (dedupKeepFirst l).Nodup :=
  dedupSeen_nodup l []

/-- The campaign-id list is exactly the (deduplicated) non-empty cids
of the responses. -/
lemma collectCids_mem (responses : List SyncResponse) (c : String) :
    c ∈ collectCids responses ↔
      c ≠ "" ∧ ∃ r ∈ responses, r.cid = some c := by
  unfold collectCids
  rw [dedupKeepFirst_mem]
  simp only [List.mem_map, List.mem_filter]
  constructor
  · rintro ⟨r, ⟨hr, hp⟩, hc⟩
    cases hcid : r.cid with
    | none => rw [hcid] at hp; simp at hp
    | some s =>
      rw [hcid] at hp hc
      simp at hp hc
      subst hc
      exact ⟨by simpa using hp, r, hr, hcid⟩
  · rintro ⟨hc, r, hr, hcid⟩
    refine ⟨r, ⟨hr, ?_⟩, ?_⟩
    · rw [hcid]
      simpa using hc
    · rw [hcid]
      rfl

/-- C8: descriptors are produced only under their enabling flag and a
configured URL (in particular the claim's pixel-only configuration
yields exactly one image descriptor); every produced URL carries the
same query string; that query string gains `&gpp=`/`&gpp_sid=`
parameters exactly when a (truthy) GPP string and a non-empty
applicable-section list are present; and the campaign ids in it are the
responses' cids, deduplicated. -/
theorem createUserSyncGetter_spec (options : SyncUrls)
    (syncOptions : SyncOptions) (responses : List SyncResponse)
    (gdprConsent : GdprConsent) (uspConsent : String)
    (gppConsent : GppConsent) :
    (∀ d ∈ getUserSyncs options syncOptions responses gdprConsent
        uspConsent gppConsent,
      (d.type = "iframe" → syncOptions.iframeEnabled = true ∧
        options.iframeSyncUrl ≠ "") ∧
      (d.type = "image" → syncOptions.pixelEnabled = true ∧
        options.imageSyncUrl ≠ "")) ∧
    (syncOptions.iframeEnabled = false → syncOptions.pixelEnabled = true →
      options.imageSyncUrl ≠ "" →
      getUserSyncs options syncOptions responses gdprConsent uspConsent
          gppConsent =
        [⟨"image", options.imageSyncUrl ++ "/" ++
          userSyncParams (collectCids responses) gdprConsent.gdprApplies
            (gdprConsent.consentString.getD "") uspConsent gppConsent⟩]) ∧
    (∀ d ∈ getUserSyncs options syncOptions responses gdprConsent
        uspConsent gppConsent,
      ∃ base, d.url = base ++ "/" ++
        userSyncParams (collectCids responses) gdprConsent.gdprApplies
          (gdprConsent.consentString.getD "") uspConsent gppConsent) ∧
    ((∃ rest, userSyncParams (collectCids responses) gdprConsent.gdprApplies
        (gdprConsent.consentString.getD "") uspConsent gppConsent =
      userSyncBaseParams (collectCids responses) gdprConsent.gdprApplies
        (gdprConsent.consentString.getD "") uspConsent ++ "&gpp=" ++ rest) ↔
      gppParamsApply gppConsent = true) ∧
    ((collectCids responses).Nodup ∧ ∀ c : String,
      c ∈ collectCids responses ↔
        c ≠ "" ∧ ∃ r ∈ responses, r.cid = some c) := by
  refine ⟨?_, ?_, ?_, ?_, dedupKeepFirst_nodup _, collectCids_mem responses⟩
  · intro d hd
    simp only [getUserSyncs, List.mem_append] at hd
    rcases hd with hd | hd
    · split_ifs at hd with hc
      · simp only [List.mem_singleton] at hd
        subst hd
        exact ⟨fun _ => ⟨by simpa using hc.1, hc.2⟩,
          fun h => absurd h (show ¬ ("iframe" : String) = "image" by decide)⟩
      · simp at hd
    · split_ifs at hd with hc
      · simp only [List.mem_singleton] at hd
        subst hd
        exact ⟨fun h => absurd h (show ¬ ("image" : String) = "iframe" by decide),
          fun _ => ⟨by simpa using hc.1, hc.2⟩⟩
      · simp at hd
  · intro h1 h2 h3
    simp only [getUserSyncs]
    rw [if_neg (by simp [h1]), if_pos (by simp [h2, h3] : (syncOptions.pixelEnabled : Prop) ∧ options.imageSyncUrl ≠ "")]
    rfl
  · intro d hd
    simp only [getUserSyncs, List.mem_append] at hd
    rcases hd with hd | hd
    · split_ifs at hd with hc
      · simp only [List.mem_singleton] at hd
        subst hd
        exact ⟨options.iframeSyncUrl, rfl⟩
      · simp at hd
    · split_ifs at hd with hc
      · simp only [List.mem_singleton] at hd
        subst hd
        exact ⟨options.imageSyncUrl, rfl⟩
      · simp at hd
  · constructor
    · rintro ⟨rest, heq⟩
      by_contra hnot
      rw [userSyncParams, if_neg (by simpa using hnot)] at heq
      have hlen := congrArg String.length heq
      rw [String.length_append, String.length_append] at hlen
      have h5 : ("&gpp=" : String).length = 5 := rfl
      omega
    · intro happ
      refine ⟨encodeURIComponent (gppConsent.gppString.getD "") ++
        "&gpp_sid=" ++ encodeURIComponent (String.intercalate ","
          (((gppConsent.applicableSections.getD []).map toString))), ?_⟩
      rw [userSyncParams, if_pos happ]
      simp [String.append_assoc]

/-- C8 witness: the pixel-only configuration of the claim, with two
duplicate campaign ids, GDPR applying and an empty GPP section list,
produces exactly one image sync whose URL carries the deduplicated
cid list and no gpp parameters. -/
theorem createUserSyncGetter_spec_witness :
    getUserSyncs ⟨"", "https://sync.example"⟩ ⟨false, true⟩
        [⟨some "c1"⟩, ⟨some "c1"⟩, ⟨some "c2"⟩] ⟨true, some "CONSENT"⟩
        "1YNN" ⟨some "g", some []⟩ =
      [⟨"image",
        "https://sync.example/?cid=c1%2Cc2&gdpr=1&gdpr_consent=CONSENT&us_privacy=1YNN"⟩] := by
  have h := (createUserSyncGetter_spec ⟨"", "https://sync.example"⟩
    ⟨false, true⟩ [⟨some "c1"⟩, ⟨some "c1"⟩, ⟨some "c2"⟩]
    ⟨true, some "CONSENT"⟩ "1YNN" ⟨some "g", some []⟩).2.1 rfl rfl
    (by decide)
  rw [h]
  rfl

end PrebidJS
